import Mathlib

/-!
Verification development for the kickoff-server repository (a Node/Socket.IO
penalty-shootout game server).  The two source files, `src/server.js` and the
unnamed near-duplicate `src/unnamed/part_000`, are shallowly embedded below:

* JavaScript numbers are modelled by `JNum`: either `NaN` or an exact value
  (real arithmetic is modelled over `ℚ`; every constant appearing in the
  source — `0.2`, `0.9`, `0.6`, `0.25`, `6`, `2`, `-15`, `15`, `-60`, `60`,
  `1` — is an exact decimal, and the claims checked here are about control
  flow, clamping and comparisons, never about binary rounding).
* `Math.random()` draws, generated ids (`uid()` / `genId()` /
  `randomUUID`) and `Date.now()` are abstracted as explicit inputs carried
  by the events: the server code treats them as opaque values.
* The process-wide mutable registries (`matches`, `queue`, `socketsMeta`)
  become the fields of `GState`; each `socket.on(...)` handler becomes a
  pure function `GState → GState × List Emit` where an `Emit` records one
  `io.to(target).emit(...)` / `socket.emit(...)` call.
* `matches` is a JS object keyed by match id (keys unique, insertion
  ordered); it is modelled as an insertion-ordered `List Match`, with
  `matches[id] = ...` as replace-if-present-else-append.
* `socketsMeta` is a JS `Map` used only through `get`/`set`/`delete`
  (never iterated); `set` is modelled as a prepend, which is
  observationally equivalent for `get` (first hit) and `delete`
  (remove every entry with the key).

The primary embedding follows `src/server.js`; the `Alt` namespace embeds
the points where `src/unnamed/part_000` differs (its `hello` handler and
the `|| 0` coercion inside its `resolveShot`).
-/

namespace Kickoff

set_option maxRecDepth 1000000

/-- A player slot, `'A' | 'B'` in the source. -/
inductive Slot
  | A
  | B
deriving DecidableEq

/-- `other(role)` from server.js: `role === 'A' ? 'B' : 'A'`. -/
def other : Slot → Slot
  | .A => .B
  | .B => .A

/-- `status: 'waiting' | 'playing' | 'finished'`. -/
inductive Status
  | waiting
  | playing
  | finished
deriving DecidableEq

/-- `type: 'public' | 'private'`. -/
inductive MType
  | publicM
  | privateM
deriving DecidableEq

/-- A dive direction / goal zone, `'left' | 'center' | 'right'`. -/
inductive Dir
  | left
  | center
  | right
deriving DecidableEq

/-- A JavaScript number: `NaN`, or an exact value modelled over `ℚ`. -/
inductive JNum
  | nan
  | num (q : ℚ)
deriving DecidableEq

namespace JNum

/-- `Math.min`: returns `NaN` if either argument is `NaN`. -/
def jmin : JNum → JNum → JNum
  | num a, num b => num (min a b)
  | _, _ => nan

/-- `Math.max`: returns `NaN` if either argument is `NaN`. -/
def jmax : JNum → JNum → JNum
  | num a, num b => num (max a b)
  | _, _ => nan

/-- JS `+` on numbers; `NaN` propagates. -/
def add : JNum → JNum → JNum
  | num a, num b => num (a + b)
  | _, _ => nan

/-- JS `-` on numbers; `NaN` propagates. -/
def sub : JNum → JNum → JNum
  | num a, num b => num (a - b)
  | _, _ => nan

/-- JS `*` on numbers; `NaN` propagates. -/
def mul : JNum → JNum → JNum
  | num a, num b => num (a * b)
  | _, _ => nan

/-- JS `<` on numbers: any comparison with `NaN` is `false`. -/
def lt : JNum → JNum → Bool
  | num a, num b => decide (a < b)
  | _, _ => false

/-- JS `x || 0` applied to a number: `NaN` and `0` are falsy (and `0 || 0` is `0`). -/
def orZero : JNum → JNum
  | nan => num 0
  | num q => num q

end JNum

/-- A stored pending kick, `{ angleDeg, power01 }`. -/
structure Kick where
  angleDeg : JNum
  power01 : JNum
deriving DecidableEq

/-- A stored pending dive, `{ dir }`. -/
structure Dive where
  dir : Dir
deriving DecidableEq

/-- `pending: { kick: null, dive: null }`. -/
structure Pending where
  kick : Option Kick
  dive : Option Dive
deriving DecidableEq

/-- One entry of the `matches` store (the doc comment atop server.js). -/
structure Match where
  id : String
  status : Status
  type : MType
  code : Option String
  playersA : Option String
  playersB : Option String
  uidA : Option String
  uidB : Option String
  spectators : List String
  round : ℕ
  maxRounds : ℕ
  scoreA : ℕ
  scoreB : ℕ
  turn : Slot
  pending : Pending
deriving DecidableEq

/-- `m.players[slot]`. -/
def Match.player (m : Match) : Slot → Option String
  | .A => m.playersA
  | .B => m.playersB

/-- `m.score[shooter] += 1`. -/
def Match.addScore (m : Match) : Slot → Match
  | .A => { m with scoreA := m.scoreA + 1 }
  | .B => { m with scoreB := m.scoreB + 1 }

/-- JS truthiness of a `socketId | null` field: `null` and `''` are falsy. -/
def truthy : Option String → Bool
  | none => false
  | some s => decide (s ≠ "")

/-- `role: 'A' | 'B' | 'spec'` inside a `socketsMeta` entry. -/
inductive MetaRole
  | A
  | B
  | spec
deriving DecidableEq

/-- One `socketsMeta` entry: `{ uid, nick, matchId, role }`. -/
structure Meta where
  uid : Option String
  nick : Option String
  matchId : Option String
  role : Option MetaRole
deriving DecidableEq

/-- The entry installed on connection: all fields `null`. -/
def Meta.init : Meta := ⟨none, none, none, none⟩

/-- The process-wide state: `matches`, `queue`, `socketsMeta` (the field for
the `matches` object is called `matchStore` because `matches` is reserved in
Lean). -/
structure GState where
  matchStore : List Match
  queue : List String
  socketsMeta : List (String × Meta)
deriving DecidableEq

/-- The state at process start: all registries empty. -/
def GState.init : GState := ⟨[], [], []⟩

/-- `matches[mid]` (object lookup by key; keys are unique in JS). -/
def getMatch (g : GState) (mid : String) : Option Match :=
  g.matchStore.find? (fun m => decide (m.id = mid))

/-- `matches[m.id] = m`: replace the entry with that key, else append. -/
def setMatch (g : GState) (m : Match) : GState :=
  if g.matchStore.any (fun x => decide (x.id = m.id)) then
    { g with matchStore := g.matchStore.map (fun x => if x.id = m.id then m else x) }
  else
    { g with matchStore := g.matchStore ++ [m] }

/-- `socketsMeta.get(sid)`. -/
def getMeta (g : GState) (sid : String) : Option Meta :=
  (g.socketsMeta.find? (fun p => decide (p.1 = sid))).map Prod.snd

/-- `socketsMeta.set(sid, v)`; prepending shadows any older entry. -/
def setMeta (g : GState) (sid : String) (v : Meta) : GState :=
  { g with socketsMeta := (sid, v) :: g.socketsMeta }

/-- `socketsMeta.delete(sid)`: drop every (shadowed or not) entry for `sid`. -/
def delMeta (g : GState) (sid : String) : GState :=
  { g with socketsMeta := g.socketsMeta.filter (fun p => decide (p.1 ≠ sid)) }

/-- `'kicker' | 'keeper'` in a `your_turn` payload. -/
inductive TRole
  | kicker
  | keeper
deriving DecidableEq

/-- `result: 'goal' | 'save' | 'miss'`. -/
inductive ShotRes
  | goal
  | save
  | miss
deriving DecidableEq

/-- `winner: 'A' | 'B' | 'draw'`. -/
inductive WinnerV
  | WA
  | WB
  | Draw
deriving DecidableEq

/-- One outbound server→client event with its payload.  Optional payload
fields (`uid`/`nick` on `hello_ok`, `reason` on `match_over`) are `Option`s:
`none` means the field is absent from the emitted object. -/
inductive Out
  | helloOk (serverTime : ℤ) (uid : Option String) (nick : Option String)
  | privateCreated (matchId : String) (code : Option String)
  | matchStart (matchId : String) (youAre : Slot) (maxRounds : ℕ)
  | yourTurn (role : TRole) (round : ℕ) (youAre : Slot) (scoreA scoreB : ℕ)
  | scoreUpdate (scoreA scoreB : ℕ) (round : ℕ) (turn : Slot)
  | shotResult (result : ShotRes) (zone : Dir) (scoreA scoreB : ℕ) (round : ℕ) (nextTurn : Slot)
  | matchOver (winner : WinnerV) (scoreA scoreB : ℕ) (reason : Option String)
  | errorMsg (message : String)
deriving DecidableEq

/-- One `io.to(target).emit(...)` call; `target = none` models emitting to a
`null` player slot (delivered to nobody). -/
abbrev Emit := Option String × Out

/-- The invite-code alphabet, `'ABCDEFGHJKLMNPQRSTUVWXYZ23456789'`. -/
def inviteChars : List Char := "ABCDEFGHJKLMNPQRSTUVWXYZ23456789".toList

/-- `inviteCode()`: six draws of `chars[Math.floor(Math.random() * chars.length)]`;
`rs i` is the i-th `Math.random()` draw (always in `[0,1)` at runtime, so the
`getD` default is never used for real draws). -/
def inviteCode (rs : ℕ → ℚ) : String :=
  String.mk ((List.range 6).map
    (fun i => inviteChars.getD (Rat.floor (rs i * (inviteChars.length : ℚ))).toNat 'A'))

/-- `createMatch(type)`: the fresh id and the random draws feeding
`inviteCode` (used only when `type === 'private'`) are explicit inputs. -/
def createMatch (type : MType) (newId : String) (codeRs : ℕ → ℚ) : Match :=
  { id := newId
    status := .waiting
    type := type
    code := if type = .privateM then some (inviteCode codeRs) else none
    playersA := none
    playersB := none
    uidA := none
    uidB := none
    spectators := []
    round := 1
    maxRounds := 5
    scoreA := 0
    scoreB := 0
    turn := .A
    pending := ⟨none, none⟩ }

/-- `pushTurn(m)`: `your_turn` to kicker and keeper, `score_update` to spectators. -/
def pushTurn (m : Match) : List Emit :=
  [(m.player m.turn, .yourTurn .kicker m.round m.turn m.scoreA m.scoreB),
   (m.player (other m.turn), .yourTurn .keeper m.round (other m.turn) m.scoreA m.scoreB)]
  ++ m.spectators.map (fun s => (some s, .scoreUpdate m.scoreA m.scoreB m.round m.turn))

/-- `startIfReady(m)`: if both slots are truthy and status is `waiting`,
switch to `playing`, emit `match_start` to both players, then `pushTurn`. -/
def startIfReady (m : Match) : Match × List Emit :=
  if truthy m.playersA ∧ truthy m.playersB ∧ m.status = .waiting then
    let m1 := { m with status := Status.playing }
    (m1,
     [(m1.playersA, .matchStart m1.id .A m1.maxRounds),
      (m1.playersB, .matchStart m1.id .B m1.maxRounds)] ++ pushTurn m1)
  else (m, [])

/-- The winner computed inside `finishMatch`. -/
def winnerOf (m : Match) : WinnerV :=
  if m.scoreA > m.scoreB then .WA else if m.scoreB > m.scoreA then .WB else .Draw

/-- `finishMatch(m)`: set `finished` and broadcast `match_over` (no reason field). -/
def finishMatch (m : Match) : Match × List Emit :=
  let m1 := { m with status := Status.finished }
  let w := winnerOf m1
  (m1,
   [(m1.playersA, .matchOver w m1.scoreA m1.scoreB none),
    (m1.playersB, .matchOver w m1.scoreA m1.scoreB none)]
   ++ m1.spectators.map (fun s => (some s, .matchOver w m1.scoreA m1.scoreB none)))

/-- `const angle = Math.max(-60, Math.min(60, kick.angleDeg))` (server.js). -/
def shotAngle (k : Kick) : JNum := JNum.jmax (.num (-60)) (JNum.jmin (.num 60) k.angleDeg)

/-- `const power = Math.max(0, Math.min(1, kick.power01))` (server.js: no `|| 0`,
so a stored `NaN` stays `NaN`). -/
def shotPower (k : Kick) : JNum := JNum.jmax (.num 0) (JNum.jmin (.num 1) k.power01)

/-- The probabilistic core of `resolveShot` (server.js lines 117–130): from
the stored kick and dive and the three `Math.random()` draws (spread, miss,
save — the save draw is simply unused on paths that do not reach it), compute
the zone and the result. -/
def shotOutcome (kick : Kick) (dive : Dive) (r1 r2 r3 : ℚ) : ShotRes × Dir :=
  let angle := shotAngle kick
  let power := shotPower kick
  let spread := JNum.mul (.num 6) (JNum.add (.num 0.2) power)
  let actualAngle := JNum.add angle (JNum.mul (.num (r1 * 2 - 1)) spread)
  let zone : Dir :=
    if JNum.lt actualAngle (.num (-15)) then .left
    else if JNum.lt (.num 15) actualAngle then .right
    else .center
  let missProb := JNum.mul (JNum.jmax (.num 0) (JNum.sub power (.num 0.9))) (.num 2)
  let isMiss := JNum.lt (.num r2) missProb
  let result : ShotRes :=
    if isMiss then .miss
    else if dive.dir = zone then
      if JNum.lt (.num r3) (JNum.sub (.num 0.6) (JNum.mul (.num 0.25) power)) then .save
      else .goal
    else .goal
  (result, zone)

/-- `resolveShot(m)` from server.js.  The function is only ever invoked with
both pending actions present (the JS would throw otherwise); the fallback arm
returns `m` unchanged. -/
def resolveShot (r1 r2 r3 : ℚ) (m : Match) : Match × List Emit :=
  match m.pending.kick, m.pending.dive with
  | some kick, some dive =>
    let m1 : Match := { m with pending := ⟨none, none⟩ }
    let result := (shotOutcome kick dive r1 r2 r3).1
    let zone := (shotOutcome kick dive r1 r2 r3).2
    let shooter := m1.turn
    let keeper := other m1.turn
    let m2 := if result = .goal then m1.addScore shooter else m1
    let broadcast : List Emit :=
      [(m2.playersA, .shotResult result zone m2.scoreA m2.scoreB m2.round keeper),
       (m2.playersB, .shotResult result zone m2.scoreA m2.scoreB m2.round keeper)]
      ++ m2.spectators.map (fun s => (some s, .shotResult result zone m2.scoreA m2.scoreB m2.round keeper))
    let m3 : Match :=
      { m2 with round := if shooter = .B then m2.round + 1 else m2.round, turn := other m2.turn }
    let totalShots := (m3.round - 1) * 2 + (if m3.turn = .A then 0 else 1)
    let maxShots := m3.maxRounds * 2
    if totalShots ≥ maxShots then
      if m3.scoreA ≠ m3.scoreB then
        let fm := finishMatch m3
        (fm.1, broadcast ++ fm.2)
      else if m3.round > m3.maxRounds ∧ m3.turn = .A ∧ m3.scoreA ≠ m3.scoreB then
        -- the source's sudden-death pair check; its guard can never hold here
        -- because this branch is only reached with the scores equal
        let fm := finishMatch m3
        (fm.1, broadcast ++ fm.2)
      else (m3, broadcast ++ pushTurn m3)
    else (m3, broadcast ++ pushTurn m3)
  | _, _ => (m, [])

/-- `io.on('connection', ...)`: install a fresh all-null `socketsMeta` entry. -/
def connectH (sid : String) (g : GState) : GState × List Emit :=
  (setMeta g sid Meta.init, [])

/-- `socket.on('hello')` from `src/server.js`.  Its parameter list
destructures `({ uid, nick })`, so inside the handler the name `uid` is the
payload field, shadowing the module-level `uid()` generator: in
`meta.uid = uid || ('guest_' + uid())` a falsy payload uid makes the right
operand call the payload value itself and throw a `TypeError` — the handler
dies before setting any metadata or replying (`none` models that thrown
exception; the guest-default branch is unreachable).  With a truthy string
uid, the metadata is set (`nick || 'Invitado'` still defaults) and the reply
is `hello_ok { serverTime: Date.now() }` — no `uid`/`nick` field in the
payload.  `uidArg`/`nickArg` are the payload fields (`none` = absent/null;
`some ""` is falsy like any empty string); `now` stands for `Date.now()`. -/
def helloH (sid : String) (uidArg nickArg : Option String) (now : ℤ)
    (g : GState) : Option (GState × List Emit) :=
  match uidArg with
  | some s =>
    if s.isEmpty then none
    else
      let meta := (getMeta g sid).getD Meta.init
      let n : String :=
        match nickArg with
        | some s2 => if s2.isEmpty then "Invitado" else s2
        | none => "Invitado"
      some (setMeta g sid { meta with uid := some s, nick := some n },
            [(some sid, .helloOk now none none)])
  | none => none

/-- The `while (queue.length >= 2)` pairing loop inside `join_queue`.  The
queue is passed separately (its remainder is written back on exit); `ids k`
is the id generated for the k-th match created by this loop. -/
def pairLoop (ids : ℕ → String) (k : ℕ) (q : List String) (g : GState) :
    GState × List Emit :=
  match q with
  | sA :: sB :: rest =>
    let m1 := { createMatch .publicM (ids k) (fun _ => 0) with
                playersA := some sA, playersB := some sB }
    let metaA := (getMeta g sA).getD Meta.init
    let g1 := setMeta g sA { metaA with matchId := some m1.id, role := some .A }
    let metaB := (getMeta g1 sB).getD Meta.init
    let g2 := setMeta g1 sB { metaB with matchId := some m1.id, role := some .B }
    let sr := startIfReady m1
    let g3 := setMatch g2 sr.1
    let rec2 := pairLoop ids (k + 1) rest g3
    (rec2.1, sr.2 ++ rec2.2)
  | q' => ({ g with queue := q' }, [])

/-- `socket.on('join_queue')`: bail out if the socket has no metadata, else
push onto the queue and run the pairing loop. -/
def joinQueueH (sid : String) (ids : ℕ → String) (g : GState) : GState × List Emit :=
  match getMeta g sid with
  | none => (g, [])
  | some _ => pairLoop ids 0 (g.queue ++ [sid]) g

/-- `socket.on('create_private')`: create a private match with this socket in
slot A and reply `private_created {matchId, code}`.  (`socket.join(room)` has
no effect on the modelled state.) -/
def createPrivateH (sid : String) (newId : String) (codeRs : ℕ → ℚ) (g : GState) :
    GState × List Emit :=
  let m1 := { createMatch .privateM newId codeRs with playersA := some sid }
  let meta := (getMeta g sid).getD Meta.init
  let g1 := setMeta g sid { meta with matchId := some m1.id, role := some .A }
  (setMatch g1 m1, [(some sid, .privateCreated m1.id m1.code)])

/-- `Object.values(matches).find(x => x.code === code && x.status === 'waiting')`. -/
def findByCode (g : GState) (code : String) : Option Match :=
  g.matchStore.find? (fun x => decide (x.code = some code ∧ x.status = .waiting))

/-- `socket.on('join_by_code')`. -/
def joinByCodeH (sid : String) (code : String) (g : GState) : GState × List Emit :=
  match findByCode g code with
  | none => (g, [(some sid, .errorMsg "Código inválido o sala no disponible")])
  | some m =>
    if truthy m.playersB then
      (g, [(some sid, .errorMsg "La sala ya está llena")])
    else
      let m1 := { m with playersB := some sid }
      let meta := (getMeta g sid).getD Meta.init
      let g1 := setMeta g sid { meta with matchId := some m1.id, role := some .B }
      let sr := startIfReady m1
      (setMatch g1 sr.1, sr.2)

/-- `socket.on('spectate_join')`: reject missing/finished matches, otherwise
add to the spectator `Set` (no duplicates) and reply with a `score_update`
snapshot. -/
def spectateJoinH (sid : String) (mid : String) (g : GState) : GState × List Emit :=
  match getMatch g mid with
  | none => (g, [(some sid, .errorMsg "Partido no disponible")])
  | some m =>
    if m.status = .finished then
      (g, [(some sid, .errorMsg "Partido no disponible")])
    else
      let m1 := { m with spectators :=
        if sid ∈ m.spectators then m.spectators else m.spectators ++ [sid] }
      let meta := (getMeta g sid).getD Meta.init
      let g1 := setMeta g sid { meta with matchId := some mid, role := some .spec }
      (setMatch g1 m1, [(some sid, .scoreUpdate m1.scoreA m1.scoreB m1.round m1.turn)])

/-- `socket.on('kick')` from `src/server.js`.  `angleDeg`/`power01` already
carry the result of the `Number(...)` coercion (`.nan` for a non-numeric
payload field).  Note the stored `power01` is `Math.max(0, Math.min(1, ...))`
with no `|| 0`, so `NaN` is stored as-is. -/
def kickH (sid : String) (angleDeg power01 : JNum) (r1 r2 r3 : ℚ) (g : GState) :
    GState × List Emit :=
  match getMeta g sid with
  | none => (g, [])
  | some meta =>
    match meta.matchId.bind (getMatch g) with
    | none => (g, [])
    | some m =>
      if m.status ≠ .playing then (g, [])
      else if m.player m.turn ≠ some sid then (g, [])
      else
        let m1 := { m with pending :=
          { m.pending with kick := some ⟨JNum.orZero angleDeg,
                                         JNum.jmax (.num 0) (JNum.jmin (.num 1) power01)⟩ } }
        if m1.pending.dive.isSome then
          let rs := resolveShot r1 r2 r3 m1
          (setMatch g rs.1, rs.2)
        else (setMatch g m1, [])

/-- `['left', 'center', 'right'].includes(dir) ? dir : 'center'`. -/
def normalizeDir (s : String) : Dir :=
  if s = "left" then .left
  else if s = "center" then .center
  else if s = "right" then .right
  else .center

/-- `socket.on('dive')`. -/
def diveH (sid : String) (dir : String) (r1 r2 r3 : ℚ) (g : GState) :
    GState × List Emit :=
  match getMeta g sid with
  | none => (g, [])
  | some meta =>
    match meta.matchId.bind (getMatch g) with
    | none => (g, [])
    | some m =>
      if m.status ≠ .playing then (g, [])
      else if m.player (other m.turn) ≠ some sid then (g, [])
      else
        let m1 := { m with pending := { m.pending with dive := some ⟨normalizeDir dir⟩ } }
        if m1.pending.kick.isSome then
          let rs := resolveShot r1 r2 r3 m1
          (setMatch g rs.1, rs.2)
        else (setMatch g m1, [])

/-- `socket.on('disconnect')`: drop the metadata entry, remove the first
queue occurrence, and — whenever the metadata carried *any* `matchId`
(player or spectator alike) — force-finish that match with
`winner = (players.A === socket.id) ? 'B' : 'A'` and reason
`opponent_disconnected`.  The spectator set of the match is never touched. -/
def disconnectH (sid : String) (g : GState) : GState × List Emit :=
  let meta := getMeta g sid
  let g1 := delMeta g sid
  let g2 := { g1 with queue := g1.queue.erase sid }
  match meta with
  | none => (g2, [])
  | some meta =>
    match meta.matchId with
    | none => (g2, [])
    | some mid =>
      match getMatch g2 mid with
      | none => (g2, [])
      | some m =>
        if m.status = .finished then (g2, [])
        else
          let m1 := { m with status := Status.finished }
          let w : WinnerV := if m1.playersA = some sid then .WB else .WA
          (setMatch g2 m1,
           [(m1.playersA, .matchOver w m1.scoreA m1.scoreB (some "opponent_disconnected")),
            (m1.playersB, .matchOver w m1.scoreA m1.scoreB (some "opponent_disconnected"))]
           ++ m1.spectators.map
                (fun s => (some s, .matchOver w m1.scoreA m1.scoreB (some "opponent_disconnected"))))

/-- An inbound event together with the opaque inputs (random draws, generated
ids, clock reading) its handler consumes. -/
inductive Event
  | connect (sid : String)
  | hello (sid : String) (uidArg nickArg : Option String) (now : ℤ) (genId : String)
  | joinQueue (sid : String) (ids : ℕ → String)
  | createPrivate (sid : String) (newId : String) (codeRs : ℕ → ℚ)
  | joinByCode (sid : String) (code : String)
  | spectateJoin (sid : String) (mid : String)
  | kick (sid : String) (angleDeg power01 : JNum) (r1 r2 r3 : ℚ)
  | dive (sid : String) (dir : String) (r1 r2 r3 : ℚ)
  | disconnect (sid : String)

/-- The socket id an event originates from. -/
def Event.sid : Event → String
  | .connect s => s
  | .hello s _ _ _ _ => s
  | .joinQueue s _ => s
  | .createPrivate s _ _ => s
  | .joinByCode s _ => s
  | .spectateJoin s _ => s
  | .kick s _ _ _ _ _ => s
  | .dive s _ _ _ _ => s
  | .disconnect s => s

/-- One event-loop iteration: dispatch the event to its handler.  Handlers
run to completion before the next event (the single-threaded event loop).
For the server.js `hello` handler, whose falsy-uid path throws (see
`helloH`), the state at the instant of the throw is the unchanged state with
nothing emitted — the process then dies, which is outside this state model. -/
def step : Event → GState → GState × List Emit
  | .connect sid, g => connectH sid g
  | .hello sid u n now _gid, g => (helloH sid u n now g).getD (g, [])
  | .joinQueue sid ids, g => joinQueueH sid ids g
  | .createPrivate sid newId codeRs, g => createPrivateH sid newId codeRs g
  | .joinByCode sid code, g => joinByCodeH sid code g
  | .spectateJoin sid mid, g => spectateJoinH sid mid g
  | .kick sid a p r1 r2 r3, g => kickH sid a p r1 r2 r3 g
  | .dive sid d r1 r2 r3, g => diveH sid d r1 r2 r3 g
  | .disconnect sid, g => disconnectH sid g

/-- Run a sequence of events from the empty initial state. -/
def run (es : List Event) : GState :=
  es.foldl (fun g e => (step e g).1) GState.init

/-- A socket.io id is a nonempty opaque token. -/
abbrev GoodEvent (e : Event) : Prop := e.sid ≠ ""

/-- A state of the server reachable by some sequence of events whose socket
ids are genuine (nonempty) socket.io ids. -/
def Reachable (g : GState) : Prop :=
  ∃ es : List Event, (∀ e ∈ es, GoodEvent e) ∧ run es = g

namespace Alt

/-- `socket.on('hello')` from `src/unnamed/part_000`: `typeof`-checked
fields, trimmed nick, and a full `hello_ok {serverTime, uid, nick}` reply.
`uidArg`/`nickArg` are `none` when the payload field is not a string. -/
def helloH (sid : String) (uidArg nickArg : Option String) (now : ℤ) (genId : String)
    (g : GState) : GState × List Emit :=
  let rawUid := uidArg.getD ""
  let nick : String :=
    match nickArg with
    | some s => if s.trim.isEmpty then "Invitado" else s.trim
    | none => "Invitado"
  let finalUid := if rawUid.isEmpty then "guest_" ++ genId else rawUid
  let meta := (getMeta g sid).getD Meta.init
  (setMeta g sid { meta with uid := some finalUid, nick := some nick },
   [(some sid, Out.helloOk now (some finalUid) (some nick))])

/-- `const power = Math.max(0, Math.min(1, Number(kick.power01) || 0))` from
`src/unnamed/part_000`'s `resolveShot`: unlike server.js it coerces a stored
`NaN` to `0` before clamping. -/
def shotPower (k : Kick) : JNum :=
  JNum.jmax (.num 0) (JNum.jmin (.num 1) (JNum.orZero k.power01))

end Alt

/-- Rank of a status in the lifecycle order `waiting → playing → finished`. -/
def statusRank : Status → ℕ
  | .waiting => 0
  | .playing => 1
  | .finished => 2

/-- The generated ids carried by an event are fresh for the current match
store.  `uid()` / `genId()` produce fresh opaque tokens; reusing an existing
match id would silently overwrite that match in the JS object, which the
model must rule out explicitly. -/
def FreshIds : Event → GState → Prop
  | .joinQueue _ ids, g => ∀ n, ∀ m ∈ g.matchStore, m.id ≠ ids n
  | .createPrivate _ newId _, g => ∀ m ∈ g.matchStore, m.id ≠ newId
  | _, _ => True

/-- Match ids are pairwise distinct — automatic for the JS object `matches`,
whose keys are unique, but a side condition on the list model. -/
abbrev NodupIds (g : GState) : Prop := (g.matchStore.map Match.id).Nodup

/-- Every waiting match that carries an invite code has a truthy slot A
(`create_private` fills A in the same event-loop turn that creates the
match). -/
def WaitingPrivateHasA (g : GState) : Prop :=
  ∀ m ∈ g.matchStore, m.status = .waiting → m.code ≠ none → truthy m.playersA = true

/-- Total shots resolved so far, as computed inside `resolveShot`:
`(m.round - 1) * 2 + (m.turn === 'A' ? 0 : 1)`. -/
def shotsTaken (m : Match) : ℕ :=
  (m.round - 1) * 2 + (if m.turn = .A then 0 else 1)

/-! Concrete scenario traces used by counterexamples and witnesses. -/

/-- Two events producing one resolved, saved shot: kick at angle 0, power 0
and a matching center dive; draws `(1/2, 0, 0)` give zone `center`, no miss,
and a save (`0 < 0.6`). -/
def evSavePair (kicker keeper : String) : List Event :=
  [.kick kicker (.num 0) (.num 0) (1/2) 0 0, .dive keeper "center" (1/2) 0 0]

/-- Connect players "a" and "b" and pair them through the public queue into
match "m1" (the id drawn while processing "b"'s `join_queue`). -/
def evSetup : List Event :=
  [.connect "a", .connect "b", .joinQueue "a" (fun _ => "z"),
   .joinQueue "b" (fun _ => "m1")]

/-- A full regulation phase of ten saved shots: the match reaches 0–0 after
round 5 and continues into sudden death (round 6, turn A). -/
def evRegulation : List Event :=
  evSetup ++ evSavePair "a" "b" ++ evSavePair "b" "a" ++ evSavePair "a" "b"
    ++ evSavePair "b" "a" ++ evSavePair "a" "b" ++ evSavePair "b" "a"
    ++ evSavePair "a" "b" ++ evSavePair "b" "a" ++ evSavePair "a" "b"
    ++ evSavePair "b" "a"

/-- One further sudden-death shot by slot A alone: the keeper dives left,
the ball goes center, goal. -/
def evSuddenA : List Event :=
  evRegulation ++ [.kick "a" (.num 0) (.num 0) (1/2) 0 0, .dive "b" "left" (1/2) 0 0]

/-- Players "a"/"b" playing match "m1", with "s" attached as a spectator. -/
def evSpectate : List Event :=
  [.connect "a", .connect "b", .connect "s", .joinQueue "a" (fun _ => "z"),
   .joinQueue "b" (fun _ => "m1"), .spectateJoin "s" "m1"]

/-- Two `create_private` events whose `Math.random()` draws collide (both
streams constantly 0), yielding two waiting private matches with the same
invite code. -/
def evTwoPrivate : List Event :=
  [.connect "a", .createPrivate "a" "m1" (fun _ => 0),
   .connect "b", .createPrivate "b" "m2" (fun _ => 0)]

/-- `evSetup` followed by a kick whose `power01` payload was non-numeric
(`Number(...)` returned `NaN`). -/
def evNanKick : List Event := evSetup ++ [.kick "a" (.num 10) .nan (1/2) 0 0]

/-- A playing regulation match about to resolve its tenth shot (round 5,
turn B, 3–4) with both pending actions present. -/
def mTenth : Match :=
  { id := "m1", status := .playing, type := .publicM, code := none,
    playersA := some "a", playersB := some "b", uidA := none, uidB := none,
    spectators := [], round := 5, maxRounds := 5, scoreA := 3, scoreB := 4,
    turn := .B, pending := ⟨some ⟨.num 0, .num 0⟩, some ⟨Dir.center⟩⟩ }

/-- A playing match about to resolve its very first shot. -/
def mFirst : Match :=
  { id := "m1", status := .playing, type := .publicM, code := none,
    playersA := some "a", playersB := some "b", uidA := none, uidB := none,
    spectators := [], round := 1, maxRounds := 5, scoreA := 0, scoreB := 0,
    turn := .A, pending := ⟨some ⟨.num 0, .num 0⟩, some ⟨Dir.center⟩⟩ }

/-- The match "m1" as it stands right after `evSetup`. -/
def mSetup : Match :=
  { id := "m1", status := .playing, type := .publicM, code := none,
    playersA := some "a", playersB := some "b", uidA := none, uidB := none,
    spectators := [], round := 1, maxRounds := 5, scoreA := 0, scoreB := 0,
    turn := .A, pending := ⟨none, none⟩ }

/-- One connected creator with a waiting private match "pm" (code "AAAAAA"). -/
def evOnePrivate : List Event :=
  [.connect "p", .createPrivate "p" "pm" (fun _ => 0)]

/-- The state reached by `resolveShot`, written out: clear the pending pair,
add the goal to the shooter's score, bump the round after slot B's shot, flip
the turn, and set `finished` exactly when the ending check fires (the inner
sudden-death branch is unreachable, since it requires the scores to be both
equal and unequal). -/
def postShotState (res : ShotRes) (m : Match) : Match :=
  { m with pending := ⟨none, none⟩,
           scoreA := m.scoreA + (if res = .goal ∧ m.turn = .A then 1 else 0),
           scoreB := m.scoreB + (if res = .goal ∧ m.turn = .B then 1 else 0),
           round := if m.turn = .B then m.round + 1 else m.round,
           turn := other m.turn }

/-- The `shot_result` broadcast built by `resolveShot` (round still the
pre-bump one, `nextTurn` the keeper). -/
def shotBroadcast (res : ShotRes) (zn : Dir) (ps m : Match) : List Emit :=
  [(m.playersA, .shotResult res zn ps.scoreA ps.scoreB m.round (other m.turn)),
   (m.playersB, .shotResult res zn ps.scoreA ps.scoreB m.round (other m.turn))]
  ++ m.spectators.map (fun s => (some s, .shotResult res zn ps.scoreA ps.scoreB m.round (other m.turn)))

/-! Basic lemmas about the store operations. -/

theorem getMatch_id {g : GState} {mid : String} {m : Match}
    (h : getMatch g mid = some m) : m.id = mid := by
  have := List.find?_some h
  simpa using this

theorem mem_of_getMatch {g : GState} {mid : String} {m : Match}
    (h : getMatch g mid = some m) : m ∈ g.matchStore :=
  List.mem_of_find?_eq_some h

theorem find?_id_map_replace (l : List Match) (m : Match) {mid : String} (h : mid ≠ m.id) :
    (l.map (fun x => if x.id = m.id then m else x)).find? (fun x => decide (x.id = mid)) =
      l.find? (fun x => decide (x.id = mid)) := by
  induction l with
  | nil => rfl
  | cons a l ih =>
    rw [List.map_cons]
    by_cases ha : a.id = m.id
    · have hm : ¬ m.id = mid := fun hc => h hc.symm
      have haa : ¬ a.id = mid := by rw [ha]; exact hm
      rw [if_pos ha, List.find?_cons_of_neg _ (by simpa using hm),
          List.find?_cons_of_neg _ (by simpa using haa), ih]
    · rw [if_neg ha]
      by_cases hb : a.id = mid
      · rw [List.find?_cons_of_pos _ (by simpa using hb),
            List.find?_cons_of_pos _ (by simpa using hb)]
      · rw [List.find?_cons_of_neg _ (by simpa using hb),
            List.find?_cons_of_neg _ (by simpa using hb), ih]

theorem find?_replace_self (l : List Match) (m : Match)
    (hex : l.any (fun x => decide (x.id = m.id)) = true) :
    (l.map (fun x => if x.id = m.id then m else x)).find?
        (fun x => decide (x.id = m.id)) = some m := by
  induction l with
  | nil => simp at hex
  | cons a l ih =>
    rw [List.map_cons]
    by_cases ha : a.id = m.id
    · rw [if_pos ha, List.find?_cons_of_pos _ (by simp)]
    · have hex' : l.any (fun x => decide (x.id = m.id)) = true := by
        simpa [List.any_cons, ha] using hex
      rw [if_neg ha, List.find?_cons_of_neg _ (by simpa using ha), ih hex']

theorem getMatch_setMatch_self (g : GState) (m : Match) :
    getMatch (setMatch g m) m.id = some m := by
  unfold getMatch setMatch
  by_cases hany : g.matchStore.any (fun x => decide (x.id = m.id)) = true
  · simp only [hany, if_true]
    exact find?_replace_self g.matchStore m hany
  · simp only [hany, if_false, Bool.false_eq_true]
    have hno : g.matchStore.find? (fun x => decide (x.id = m.id)) = none := by
      rw [List.find?_eq_none]
      intro x hx hdec
      exact hany (List.any_eq_true.mpr ⟨x, hx, hdec⟩)
    rw [List.find?_append, hno]
    have hm : [m].find? (fun x => decide (x.id = m.id)) = some m :=
      List.find?_cons_of_pos _ (by simp)
    rw [hm]
    rfl

theorem getMatch_setMatch_ne (g : GState) (m : Match) {mid : String} (h : mid ≠ m.id) :
    getMatch (setMatch g m) mid = getMatch g mid := by
  unfold getMatch setMatch
  by_cases hany : g.matchStore.any (fun x => decide (x.id = m.id)) = true
  · simp only [hany, if_true]
    exact find?_id_map_replace g.matchStore m h
  · simp only [hany, if_false, Bool.false_eq_true]
    rw [List.find?_append]
    have hnone : [m].find? (fun x => decide (x.id = mid)) = none := by
      rw [List.find?_eq_none]
      intro x hx hdec
      have hxm : x = m := by simpa using hx
      have hid : m.id = mid := by simpa [hxm] using hdec
      exact h hid.symm
    rw [hnone, Option.or_none]

theorem mem_setMatch {x : Match} {g : GState} {m : Match}
    (h : x ∈ (setMatch g m).matchStore) : x ∈ g.matchStore ∨ x = m := by
  unfold setMatch at h
  by_cases hany : g.matchStore.any (fun y => decide (y.id = m.id)) = true
  · simp only [hany, if_true] at h
    rcases List.mem_map.mp h with ⟨y, hy, hyx⟩
    by_cases hyid : y.id = m.id
    · right; rw [if_pos hyid] at hyx; exact hyx.symm
    · left; rw [if_neg hyid] at hyx; exact hyx ▸ hy
  · simp only [hany, if_false, Bool.false_eq_true, List.mem_append] at h
    rcases h with h | h
    · exact .inl h
    · right; simpa using h

theorem getMeta_setMeta_self (g : GState) (sid : String) (v : Meta) :
    getMeta (setMeta g sid v) sid = some v := by
  simp [getMeta, setMeta, List.find?_cons]

/-! Field-preservation lemmas for the match-mutating helpers. -/

@[simp] theorem addScore_id (m : Match) (s : Slot) : (m.addScore s).id = m.id := by
  cases s <;> rfl

@[simp] theorem addScore_status (m : Match) (s : Slot) : (m.addScore s).status = m.status := by
  cases s <;> rfl

@[simp] theorem addScore_playersA (m : Match) (s : Slot) : (m.addScore s).playersA = m.playersA := by
  cases s <;> rfl

@[simp] theorem addScore_playersB (m : Match) (s : Slot) : (m.addScore s).playersB = m.playersB := by
  cases s <;> rfl

@[simp] theorem addScore_round (m : Match) (s : Slot) : (m.addScore s).round = m.round := by
  cases s <;> rfl

@[simp] theorem addScore_turn (m : Match) (s : Slot) : (m.addScore s).turn = m.turn := by
  cases s <;> rfl

@[simp] theorem addScore_maxRounds (m : Match) (s : Slot) : (m.addScore s).maxRounds = m.maxRounds := by
  cases s <;> rfl

@[simp] theorem addScore_spectators (m : Match) (s : Slot) : (m.addScore s).spectators = m.spectators := by
  cases s <;> rfl

@[simp] theorem addScore_code (m : Match) (s : Slot) : (m.addScore s).code = m.code := by
  cases s <;> rfl

theorem startIfReady_id (m : Match) : (startIfReady m).1.id = m.id := by
  unfold startIfReady
  split <;> rfl

theorem startIfReady_status (m : Match) :
    (startIfReady m).1.status = m.status ∨
      (m.status = .waiting ∧ (startIfReady m).1.status = .playing) := by
  unfold startIfReady
  split_ifs with h
  · exact .inr ⟨h.2.2, rfl⟩
  · exact .inl rfl

set_option maxHeartbeats 1000000 in
theorem resolveShot_spec (r1 r2 r3 : ℚ) (m : Match) (k : Kick) (d : Dive)
    (hk : m.pending.kick = some k) (hd : m.pending.dive = some d) :
    resolveShot r1 r2 r3 m =
      (if shotsTaken (postShotState (shotOutcome k d r1 r2 r3).1 m) ≥
            m.maxRounds * 2 ∧
          (postShotState (shotOutcome k d r1 r2 r3).1 m).scoreA ≠
            (postShotState (shotOutcome k d r1 r2 r3).1 m).scoreB
       then ((finishMatch (postShotState (shotOutcome k d r1 r2 r3).1 m)).1,
             shotBroadcast (shotOutcome k d r1 r2 r3).1 (shotOutcome k d r1 r2 r3).2
               (postShotState (shotOutcome k d r1 r2 r3).1 m) m
               ++ (finishMatch (postShotState (shotOutcome k d r1 r2 r3).1 m)).2)
       else (postShotState (shotOutcome k d r1 r2 r3).1 m,
             shotBroadcast (shotOutcome k d r1 r2 r3).1 (shotOutcome k d r1 r2 r3).2
               (postShotState (shotOutcome k d r1 r2 r3).1 m) m
               ++ pushTurn (postShotState (shotOutcome k d r1 r2 r3).1 m))) := by
  obtain ⟨mi, ms, mt, mc, pA, pB, uA, uB, sp, rd, mx, sA, sB, tn, pe⟩ := m
  simp only at hk hd
  simp only [resolveShot, hk, hd, postShotState, shotsTaken, shotBroadcast]
  cases hres : (shotOutcome k d r1 r2 r3).1 <;>
    cases tn <;>
      simp [Match.addScore, other] <;>
        split_ifs <;> first | rfl | omega

theorem resolveShot_inv (r1 r2 r3 : ℚ) (m : Match) :
    (resolveShot r1 r2 r3 m).1.id = m.id ∧
    (resolveShot r1 r2 r3 m).1.playersA = m.playersA ∧
    (resolveShot r1 r2 r3 m).1.playersB = m.playersB ∧
    (resolveShot r1 r2 r3 m).1.maxRounds = m.maxRounds ∧
    ((resolveShot r1 r2 r3 m).1.status = m.status ∨
      (resolveShot r1 r2 r3 m).1.status = .finished) := by
  cases hk : m.pending.kick with
  | none => simp [resolveShot, hk]
  | some k =>
    cases hd : m.pending.dive with
    | none => simp [resolveShot, hk, hd]
    | some d =>
      rw [resolveShot_spec r1 r2 r3 m k d hk hd]
      split_ifs <;> simp [postShotState, finishMatch]

theorem winnerOf_of_ne {m : Match} (h : m.scoreA ≠ m.scoreB) :
    winnerOf m = if m.scoreA > m.scoreB then WinnerV.WA else WinnerV.WB := by
  unfold winnerOf
  split_ifs <;> first | rfl | omega

theorem getD_mem_or {α : Type} (l : List α) (n : ℕ) (d : α) :
    l.getD n d ∈ l ∨ l.getD n d = d := by
  by_cases h : n < l.length
  · left
    rw [List.getD_eq_getElem l d h]
    exact l.getElem_mem h
  · right
    exact List.getD_eq_default l d (le_of_not_lt h)

/-! The claims. -/

/-- C1 (the code contradicts the claim): failing input — a connection that is
only a spectator of a playing match disconnects.  The disconnect handler keys
on `meta.matchId` without checking the role, so the spectator's disconnect
force-finishes the match (status `playing → finished`), emits `match_over`
(with the nonsensical winner `'A'`, since the spectator is not `players.A`)
to both players and the spectator, and never removes the spectator from the
spectator set.  The claim says a spectator disconnect only removes them from
the spectator set and leaves all match state unchanged. -/
theorem spectator_disconnect_force_finishes :
    ((getMatch (run evSpectate) "m1").map (fun m => (m.status, m.spectators)) =
      some (.playing, ["s"])) ∧
    ((getMatch (step (.disconnect "s") (run evSpectate)).1 "m1").map
        (fun m => (m.status, m.spectators, m.round, m.turn,
                   m.scoreA, m.scoreB, m.playersA, m.playersB)) =
      some (.finished, ["s"], 1, .A, 0, 0, some "a", some "b")) ∧
    ((step (.disconnect "s") (run evSpectate)).2 =
      [(some "a", .matchOver .WA 0 0 (some "opponent_disconnected")),
       (some "b", .matchOver .WA 0 0 (some "opponent_disconnected")),
       (some "s", .matchOver .WA 0 0 (some "opponent_disconnected"))]) := by
  refine ⟨?_, ?_, ?_⟩ <;> with_unfolding_all rfl

/-- C2 counterexample: a reachable match that ends regulation tied 0–0 enters
sudden death (round 6, turn A, still `playing`); the very next shot — by slot
A alone — is a goal and the match is immediately `finished` at 1–0 with turn
`B`, i.e. slot B never got to close the pair.  This refutes the claim that
the termination check runs only after slot B's shot and that a shot by slot A
alone never finishes the match. -/
theorem sudden_death_slotA_shot_finishes_cx :
    ((getMatch (run evRegulation) "m1").map
        (fun m => (m.status, m.round, m.turn, m.scoreA, m.scoreB)) =
      some (.playing, 6, .A, 0, 0)) ∧
    ((getMatch (run evSuddenA) "m1").map
        (fun m => (m.status, m.round, m.turn, m.scoreA, m.scoreB)) =
      some (.finished, 6, .B, 1, 0)) := by
  refine ⟨?_, ?_⟩ <;> with_unfolding_all rfl

/-- C2 (amended): the ending check of `resolveShot` runs after every shot,
not only after slot B's: a playing match with both pending actions present is
`finished` by `resolveShot` exactly when, after the shot's bookkeeping, the
total shot count has reached `maxRounds * 2` and the scores differ — in
particular a shot by slot A alone in sudden death does finish the match when
it leaves the scores unequal, and the source's pair-boundary check is
unreachable (it requires the scores to be simultaneously equal and unequal). -/
theorem resolveShot_finish_iff (r1 r2 r3 : ℚ) (m : Match)
    (hst : m.status = .playing)
    (hk : m.pending.kick.isSome = true) (hd : m.pending.dive.isSome = true) :
    ((resolveShot r1 r2 r3 m).1.status = .finished ↔
      shotsTaken (resolveShot r1 r2 r3 m).1 ≥ m.maxRounds * 2 ∧
        (resolveShot r1 r2 r3 m).1.scoreA ≠ (resolveShot r1 r2 r3 m).1.scoreB) := by
  rw [Option.isSome_iff_exists] at hk hd
  obtain ⟨k, hk⟩ := hk
  obtain ⟨d, hd⟩ := hd
  rw [resolveShot_spec r1 r2 r3 m k d hk hd]
  split_ifs with h
  · constructor
    · intro _
      simpa [finishMatch, shotsTaken] using h
    · intro _
      simp [finishMatch]
  · constructor
    · intro hc
      simp [postShotState, hst] at hc
    · intro hc
      exact absurd hc h

/-- Witness for `resolveShot_finish_iff` at the concrete tenth-shot match
`mTenth`. -/
theorem resolveShot_finish_iff_witness :
    ((resolveShot (1/2) 0 0 mTenth).1.status = .finished ↔
      shotsTaken (resolveShot (1/2) 0 0 mTenth).1 ≥ mTenth.maxRounds * 2 ∧
        (resolveShot (1/2) 0 0 mTenth).1.scoreA ≠ (resolveShot (1/2) 0 0 mTenth).1.scoreB) :=
  resolveShot_finish_iff (1/2) 0 0 mTenth rfl rfl rfl

/-- C3 counterexample: a reachable state (two `create_private` events whose
random streams collide) holding two distinct waiting private matches with the
same invite code "AAAAAA" — uniqueness among waiting private matches is not
enforced anywhere in `createMatch`/`inviteCode`. -/
theorem invite_code_collision_cx :
    Reachable (run evTwoPrivate) ∧
    ((getMatch (run evTwoPrivate) "m1").map (fun m => (m.code, m.status, m.type)) =
      some (some "AAAAAA", .waiting, .privateM)) ∧
    ((getMatch (run evTwoPrivate) "m2").map (fun m => (m.code, m.status, m.type)) =
      some (some "AAAAAA", .waiting, .privateM)) := by
  refine ⟨⟨evTwoPrivate, ?_, rfl⟩, ?_, ?_⟩
  · intro e he
    fin_cases he <;> simp [GoodEvent, Event.sid]
  · with_unfolding_all rfl
  · with_unfolding_all rfl

/-- C3 (amended): every invite code is 6 characters drawn from the fixed
unambiguous alphabet `ABCDEFGHJKLMNPQRSTUVWXYZ23456789`; uniqueness among
currently-waiting private matches is NOT guaranteed (the codes of distinct
matches are independent random draws and can collide, see the
counterexample). -/
theorem invite_code_alphabet (rs : ℕ → ℚ) :
    (inviteCode rs).length = 6 ∧ ∀ c ∈ (inviteCode rs).toList, c ∈ inviteChars := by
  constructor
  · rfl
  · intro c hc
    have hc' : c ∈ (List.range 6).map
        (fun i => inviteChars.getD (Rat.floor (rs i * (inviteChars.length : ℚ))).toNat 'A') := hc
    obtain ⟨i, _, rfl⟩ := List.mem_map.mp hc'
    rcases getD_mem_or inviteChars (Rat.floor (rs i * (inviteChars.length : ℚ))).toNat 'A' with h | h
    · exact h
    · rw [h]
      decide

/-- C4 counterexample: in `src/server.js` the `hello_ok` reply carries only
`serverTime` — the `uid` and `nick` fields are absent from the payload. -/
theorem hello_ok_missing_fields_cx :
    (step (.hello "a" (some "u1") (some "n1") 0 "gid") (run [.connect "a"])).2 =
      [(some "a", .helloOk 0 none none)] := by
  with_unfolding_all rfl

/-- C4 (amended): the part_000 hello handler always sets/confirms the
identity metadata (uid defaulted to a generated guest identifier, nick
defaulted) and replies `hello_ok` with all three fields `serverTime`, `uid`,
`nick`.  The server.js handler, given a truthy string uid, sets the metadata
(nick still defaulted) but replies with `serverTime` alone; given an absent
or empty uid it does not reply at all — the destructured payload field `uid`
shadows the `uid()` generator, the handler throws, and its guest-default
path is dead code. -/
theorem hello_payload_contract (sid : String) (u n : Option String) (now : ℤ)
    (gid : String) (g : GState) :
    (∃ uid' nick',
        (Alt.helloH sid u n now gid g).2 =
          [(some sid, .helloOk now (some uid') (some nick'))] ∧
        getMeta (Alt.helloH sid u n now gid g).1 sid =
          some { (getMeta g sid).getD Meta.init with
                 uid := some uid', nick := some nick' }) ∧
    (∀ s, u = some s → s ≠ "" →
      ∃ pr nick', helloH sid u n now g = some pr ∧
        pr.2 = [(some sid, .helloOk now none none)] ∧
        getMeta pr.1 sid =
          some { (getMeta g sid).getD Meta.init with
                 uid := some s, nick := some nick' }) ∧
    (u = none ∨ u = some "" → helloH sid u n now g = none) := by
  refine ⟨⟨_, _, rfl, getMeta_setMeta_self _ _ _⟩, ?_, ?_⟩
  · intro s hu hs
    subst hu
    have hse : s.isEmpty = false := by
      cases hemp : s.isEmpty
      · rfl
      · exact absurd ((String.isEmpty_iff s).mp hemp) hs
    refine ⟨(setMeta g sid { (getMeta g sid).getD Meta.init with
        uid := some s,
        nick := some (match n with
          | some s2 => if s2.isEmpty then "Invitado" else s2
          | none => "Invitado") },
      [(some sid, Out.helloOk now none none)]), _, ?_, rfl,
      getMeta_setMeta_self _ _ _⟩
    simp [helloH, hse]
  · rintro (rfl | rfl)
    · rfl
    · have hemp : ("" : String).isEmpty = true := by decide
      simp [helloH, hemp]

/-- Witness for `hello_payload_contract`: the part_000 reply and metadata at
concrete arguments, the server.js truthy-uid reply, and the server.js
falsy-uid exception. -/
theorem hello_payload_contract_witness :
    (∃ uid' nick',
        (Alt.helloH "a" (some "u1") (some "n1") 0 "gid" GState.init).2 =
          [(some "a", Out.helloOk 0 (some uid') (some nick'))] ∧
        getMeta (Alt.helloH "a" (some "u1") (some "n1") 0 "gid" GState.init).1 "a" =
          some { (getMeta GState.init "a").getD Meta.init with
                 uid := some uid', nick := some nick' }) ∧
    (∃ pr nick', helloH "a" (some "u1") (some "n1") 0 GState.init = some pr ∧
        pr.2 = [(some "a", Out.helloOk 0 none none)] ∧
        getMeta pr.1 "a" =
          some { (getMeta GState.init "a").getD Meta.init with
                 uid := some "u1", nick := some nick' }) ∧
    helloH "a" none (some "n1") 0 GState.init = none :=
  ⟨(hello_payload_contract "a" (some "u1") (some "n1") 0 "gid" GState.init).1,
   (hello_payload_contract "a" (some "u1") (some "n1") 0 "gid" GState.init).2.1
     "u1" rfl (by decide),
   (hello_payload_contract "a" none (some "n1") 0 "gid" GState.init).2.2 (.inl rfl)⟩

/-- C5 (the code contradicts the claim): failing input — a `kick` whose
`power01` payload field is non-numeric, so `Number(power01)` is `NaN`.  In
server.js `Math.max(0, Math.min(1, NaN))` is `NaN`: the stored pending kick
carries `power01 = NaN`, and the power used by `resolveShot` (`shotPower`,
which again lacks a `|| 0`) is `NaN` — not a value of `[0, 1]` — and flows
into the resolution arithmetic.  The part_000 variant coerces the same stored
`NaN` to `0` (`Alt.shotPower`), matching the claim. -/
theorem kick_nan_power_bug :
    ((getMatch (run evNanKick) "m1").bind (fun m => m.pending.kick) =
      some ⟨.num 10, .nan⟩) ∧
    shotPower ⟨.num 10, .nan⟩ = .nan ∧
    (∀ q : ℚ, shotPower ⟨.num 10, .nan⟩ ≠ .num q) ∧
    Alt.shotPower ⟨.num 10, .nan⟩ = .num 0 := by
  refine ⟨?_, rfl, ?_, rfl⟩
  · with_unfolding_all rfl
  · intro q h
    exact JNum.noConfusion h

/-- C6: after the tenth regulation shot (round 5, slot B shooting,
`maxRounds = 5`), `resolveShot` finishes the match exactly when the
post-shot scores are unequal — with the higher scorer as the emitted
`match_over` winner — and with equal scores leaves it `playing` in round 6
(sudden death), turn A. -/
theorem regulation_ending (r1 r2 r3 : ℚ) (m : Match)
    (hst : m.status = .playing) (hr : m.round = 5) (ht : m.turn = .B)
    (hmax : m.maxRounds = 5)
    (hk : m.pending.kick.isSome = true) (hd : m.pending.dive.isSome = true) :
    ((resolveShot r1 r2 r3 m).1.scoreA ≠ (resolveShot r1 r2 r3 m).1.scoreB →
      (resolveShot r1 r2 r3 m).1.status = .finished ∧
      winnerOf (resolveShot r1 r2 r3 m).1 =
        (if (resolveShot r1 r2 r3 m).1.scoreA > (resolveShot r1 r2 r3 m).1.scoreB
         then WinnerV.WA else WinnerV.WB) ∧
      ((resolveShot r1 r2 r3 m).1.playersA,
        Out.matchOver (winnerOf (resolveShot r1 r2 r3 m).1)
          (resolveShot r1 r2 r3 m).1.scoreA (resolveShot r1 r2 r3 m).1.scoreB none)
        ∈ (resolveShot r1 r2 r3 m).2) ∧
    ((resolveShot r1 r2 r3 m).1.scoreA = (resolveShot r1 r2 r3 m).1.scoreB →
      (resolveShot r1 r2 r3 m).1.status = .playing ∧
      (resolveShot r1 r2 r3 m).1.round = 6 ∧
      (resolveShot r1 r2 r3 m).1.turn = .A) := by
  rw [Option.isSome_iff_exists] at hk hd
  obtain ⟨k, hk⟩ := hk
  obtain ⟨d, hd⟩ := hd
  rw [resolveShot_spec r1 r2 r3 m k d hk hd]
  have hten : shotsTaken (postShotState (shotOutcome k d r1 r2 r3).1 m) = 10 := by
    simp [postShotState, shotsTaken, hr, ht, other]
  set ps := postShotState (shotOutcome k d r1 r2 r3).1 m with hps
  by_cases h : shotsTaken ps ≥ m.maxRounds * 2 ∧ ps.scoreA ≠ ps.scoreB
  · rw [if_pos h]
    constructor
    · intro hne
      refine ⟨by simp [finishMatch], winnerOf_of_ne hne, ?_⟩
      simp [finishMatch]
    · intro heq
      exact absurd (by simpa [finishMatch] using heq) h.2
  · rw [if_neg h]
    constructor
    · intro hne
      exfalso
      refine h ⟨?_, ?_⟩
      · omega
      · exact hne
    · intro _
      refine ⟨?_, ?_, ?_⟩ <;> simp [hps, postShotState, hst, hr, ht, other]

/-- Witness for `regulation_ending` at the concrete tenth-shot match
`mTenth` (the shot is saved, final score 3–4, slot B wins). -/
theorem regulation_ending_witness :
    ((resolveShot (1/2) 0 0 mTenth).1.scoreA ≠ (resolveShot (1/2) 0 0 mTenth).1.scoreB →
      (resolveShot (1/2) 0 0 mTenth).1.status = .finished ∧
      winnerOf (resolveShot (1/2) 0 0 mTenth).1 =
        (if (resolveShot (1/2) 0 0 mTenth).1.scoreA > (resolveShot (1/2) 0 0 mTenth).1.scoreB
         then WinnerV.WA else WinnerV.WB) ∧
      ((resolveShot (1/2) 0 0 mTenth).1.playersA,
        Out.matchOver (winnerOf (resolveShot (1/2) 0 0 mTenth).1)
          (resolveShot (1/2) 0 0 mTenth).1.scoreA (resolveShot (1/2) 0 0 mTenth).1.scoreB none)
        ∈ (resolveShot (1/2) 0 0 mTenth).2) ∧
    ((resolveShot (1/2) 0 0 mTenth).1.scoreA = (resolveShot (1/2) 0 0 mTenth).1.scoreB →
      (resolveShot (1/2) 0 0 mTenth).1.status = .playing ∧
      (resolveShot (1/2) 0 0 mTenth).1.round = 6 ∧
      (resolveShot (1/2) 0 0 mTenth).1.turn = .A) :=
  regulation_ending (1/2) 0 0 mTenth rfl rfl rfl rfl rfl rfl

/-- C10: shot resolution only ever reaches the finishing path once the total
shot count has reached `maxRounds * 2` — no score difference finishes a
playing match earlier through `resolveShot` (first conjunct).  The claim's
universal reading is nevertheless violated by the code through the spectator
disconnect defect: in the second conjunct a reachable playing match in which
neither player ever disconnected (only spectator "s" did) is `finished` with
zero shots resolved. -/
theorem no_finish_before_max_shots :
    (∀ (r1 r2 r3 : ℚ) (m : Match), m.status = .playing →
      shotsTaken (resolveShot r1 r2 r3 m).1 < m.maxRounds * 2 →
      (resolveShot r1 r2 r3 m).1.status = .playing) ∧
    ((getMatch (step (.disconnect "s") (run evSpectate)).1 "m1").map
        (fun mm => (mm.status, shotsTaken mm)) = some (.finished, 0)) := by
  constructor
  · intro r1 r2 r3 m hst hlt
    cases hk : m.pending.kick with
    | none => simpa [resolveShot, hk] using hst
    | some k =>
      cases hd : m.pending.dive with
      | none => simpa [resolveShot, hk, hd] using hst
      | some d =>
        rw [resolveShot_spec r1 r2 r3 m k d hk hd] at hlt ⊢
        split_ifs at hlt ⊢ with h
        · exfalso
          have hts : shotsTaken ((finishMatch
              (postShotState (shotOutcome k d r1 r2 r3).1 m)).1) =
              shotsTaken (postShotState (shotOutcome k d r1 r2 r3).1 m) := by
            simp [finishMatch, shotsTaken]
          rw [hts] at hlt
          omega
        · simp [postShotState, hst]
  · with_unfolding_all rfl

/-- Witness for the universally quantified conjunct of
`no_finish_before_max_shots` at the concrete first-shot match `mFirst`. -/
theorem no_finish_before_max_shots_witness :
    (resolveShot (1/2) 0 0 mFirst).1.status = .playing :=
  no_finish_before_max_shots.1 (1/2) 0 0 mFirst rfl
    (of_decide_eq_true (by with_unfolding_all rfl))

/-! Lemmas towards status monotonicity (C7). -/

@[simp] theorem getMatch_setMeta (g : GState) (sid : String) (v : Meta) (mid : String) :
    getMatch (setMeta g sid v) mid = getMatch g mid := rfl

@[simp] theorem getMatch_delMeta (g : GState) (sid : String) (mid : String) :
    getMatch (delMeta g sid) mid = getMatch g mid := rfl

@[simp] theorem getMatch_setQueue (g : GState) (q : List String) (mid : String) :
    getMatch { g with queue := q } mid = getMatch g mid := rfl

theorem findByCode_mem {g : GState} {code : String} {mf : Match}
    (h : findByCode g code = some mf) : mf ∈ g.matchStore :=
  List.mem_of_find?_eq_some h

theorem findByCode_spec {g : GState} {code : String} {mf : Match}
    (h : findByCode g code = some mf) : mf.code = some code ∧ mf.status = .waiting := by
  have := List.find?_some h
  simpa using this

theorem eq_of_mem_of_same_id {g : GState} (hnd : NodupIds g) {x y : Match}
    (hx : x ∈ g.matchStore) (hy : y ∈ g.matchStore) (hid : x.id = y.id) : x = y :=
  List.inj_on_of_nodup_map hnd hx hy hid

theorem pairLoop_getMatch (ids : ℕ → String) {mid : String}
    (hfresh : ∀ n, ids n ≠ mid) (k : ℕ) (q : List String) (g : GState) :
    getMatch (pairLoop ids k q g).1 mid = getMatch g mid := by
  induction k, q, g using pairLoop.induct ids with
  | case1 k g sA sB rest m1 metaA g1 metaB g2 sr g3 ih =>
    have hid : sr.1.id = ids k := by
      have hsr : sr = startIfReady m1 := rfl
      rw [hsr, startIfReady_id]
      rfl
    have hne : mid ≠ sr.1.id := by
      rw [hid]
      exact fun hc => hfresh k hc.symm
    have hstep : getMatch (pairLoop ids k (sA :: sB :: rest) g).1 mid
        = getMatch (pairLoop ids (k + 1) rest g3).1 mid := rfl
    rw [hstep, ih]
    exact getMatch_setMatch_ne g2 sr.1 hne
  | case2 k g q' hq =>
    match q' with
    | [] => rfl
    | [s] => rfl
    | sA :: sB :: rest => exact absurd rfl (hq sA sB rest)

/-- The common tail of the `kick` and `dive` handlers: store the updated
pending action, resolving the shot when its counterpart is present; either
way the status rank of any surviving match cannot drop. -/
theorem resolve_store_mono {g : GState} {mid : String} {m m' : Match}
    (mf m1 : Match) (r1 r2 r3 : ℚ) (bcond : Bool) (em : List Emit)
    (h1 : getMatch g mid = some m)
    (h2 : getMatch (if bcond = true then
            (setMatch g (resolveShot r1 r2 r3 m1).1, (resolveShot r1 r2 r3 m1).2)
          else (setMatch g m1, em)).1 mid = some m')
    (hm1id : m1.id = mf.id) (hm1st : m1.status = mf.status)
    (hstp : mf.status = .playing)
    (hmmf : mid = mf.id → m = mf) :
    statusRank m.status ≤ statusRank m'.status := by
  by_cases hmid : mid = mf.id
  · have hm := hmmf hmid
    cases bcond with
    | false =>
      simp only [Bool.false_eq_true, if_false] at h2
      rw [show mid = m1.id from by rw [hm1id, hmid], getMatch_setMatch_self] at h2
      cases h2
      rw [hm, hm1st]
    | true =>
      simp only [if_true] at h2
      rw [show mid = (resolveShot r1 r2 r3 m1).1.id from
            by rw [(resolveShot_inv _ _ _ _).1, hm1id, hmid],
          getMatch_setMatch_self] at h2
      cases h2
      rcases (resolveShot_inv r1 r2 r3 m1).2.2.2.2 with hsame | hfin
      · rw [hm, hsame, hm1st]
      · rw [hm, hstp, hfin]
        simp [statusRank]
  · have hne1 : mid ≠ m1.id := by rw [hm1id]; exact hmid
    have hne2 : mid ≠ (resolveShot r1 r2 r3 m1).1.id := by
      rw [(resolveShot_inv _ _ _ _).1, hm1id]
      exact hmid
    cases bcond with
    | false =>
      simp only [Bool.false_eq_true, if_false] at h2
      rw [getMatch_setMatch_ne _ _ hne1] at h2
      rw [h1] at h2
      cases h2
      exact le_refl _
    | true =>
      simp only [if_true] at h2
      rw [getMatch_setMatch_ne _ _ hne2] at h2
      rw [h1] at h2
      cases h2
      exact le_refl _

/-- C7: the match status only ever moves forward through
`waiting → playing → finished`.  For every event whose generated ids are
fresh (as the opaque tokens of `uid()`/`genId()` are), and for any state
whose match ids are pairwise distinct (automatic for the JS object), the
status rank of every surviving match never decreases across a step. -/
theorem status_monotone (e : Event) (g : GState)
    (hf : FreshIds e g) (hnd : NodupIds g)
    (mid : String) (m m' : Match)
    (h1 : getMatch g mid = some m) (h2 : getMatch (step e g).1 mid = some m') :
    statusRank m.status ≤ statusRank m'.status := by
  cases e with
  | connect sid =>
    simp only [step, connectH, getMatch_setMeta] at h2
    rw [h1] at h2
    cases h2
    exact le_refl _
  | hello sid u n now gid =>
    have hms : getMatch ((helloH sid u n now g).getD (g, [])).1 mid = getMatch g mid := by
      cases u with
      | none => rfl
      | some s =>
        by_cases hs : s.isEmpty <;> simp [helloH, hs, getMatch_setMeta]
    simp only [step] at h2
    rw [hms, h1] at h2
    cases h2
    exact le_refl _
  | joinQueue sid ids =>
    cases hgm : getMeta g sid with
    | none =>
      simp only [step, joinQueueH, hgm] at h2
      rw [h1] at h2
      cases h2
      exact le_refl _
    | some meta =>
      simp only [step, joinQueueH, hgm] at h2
      have hfr : ∀ n, ids n ≠ mid := by
        intro n hc
        exact hf n m (mem_of_getMatch h1) (by rw [getMatch_id h1, hc])
      rw [pairLoop_getMatch ids hfr 0 (g.queue ++ [sid]) g] at h2
      rw [h1] at h2
      cases h2
      exact le_refl _
  | createPrivate sid newId codeRs =>
    simp only [step, createPrivateH] at h2
    rw [getMatch_setMatch_ne, getMatch_setMeta] at h2
    · rw [h1] at h2
      cases h2
      exact le_refl _
    · show mid ≠ ({ createMatch .privateM newId codeRs with playersA := some sid } : Match).id
      intro hc
      exact hf m (mem_of_getMatch h1) (by rw [getMatch_id h1, hc]; rfl)
  | joinByCode sid code =>
    cases hfc : findByCode g code with
    | none =>
      simp only [step, joinByCodeH, hfc] at h2
      rw [h1] at h2
      cases h2
      exact le_refl _
    | some mf =>
      by_cases hb : truthy mf.playersB = true
      · simp only [step, joinByCodeH, hfc, hb, if_true] at h2
        rw [h1] at h2
        cases h2
        exact le_refl _
      · simp only [step, joinByCodeH, hfc, hb, Bool.false_eq_true, if_false] at h2
        by_cases hmid : mid = (startIfReady { mf with playersB := some sid }).1.id
        · have hw : m.status = .waiting := by
            have hmmf : m = mf := by
              apply eq_of_mem_of_same_id hnd (mem_of_getMatch h1) (findByCode_mem hfc)
              rw [getMatch_id h1, hmid, startIfReady_id]
            rw [hmmf]
            exact (findByCode_spec hfc).2
          rw [hw]
          exact Nat.zero_le _
        · rw [getMatch_setMatch_ne _ _ hmid, getMatch_setMeta] at h2
          rw [h1] at h2
          cases h2
          exact le_refl _
  | spectateJoin sid mid2 =>
    cases hgm : getMatch g mid2 with
    | none =>
      simp only [step, spectateJoinH, hgm] at h2
      rw [h1] at h2
      cases h2
      exact le_refl _
    | some mf =>
      by_cases hfin : mf.status = .finished
      · simp only [step, spectateJoinH, hgm, hfin, if_pos] at h2
        rw [h1] at h2
        cases h2
        exact le_refl _
      · simp only [step, spectateJoinH, hgm, hfin, if_false] at h2
        by_cases hmid : mid = ({ mf with spectators :=
            if sid ∈ mf.spectators then mf.spectators else mf.spectators ++ [sid] } : Match).id
        · have hmmf : m = mf := by
            have hid2 : mf.id = mid2 := getMatch_id hgm
            have hmm : mid = mid2 := by
              rw [hmid]
              exact hid2
            rw [hmm, hgm] at h1
            cases h1
            rfl
          rw [hmid, getMatch_setMatch_self] at h2
          cases h2
          rw [hmmf]
        · rw [getMatch_setMatch_ne _ _ hmid, getMatch_setMeta] at h2
          rw [h1] at h2
          cases h2
          exact le_refl _
  | kick sid a p r1 r2 r3 =>
    cases hgm : getMeta g sid with
    | none =>
      simp only [step, kickH, hgm] at h2
      rw [h1] at h2
      cases h2
      exact le_refl _
    | some meta =>
      cases hmb : meta.matchId.bind (getMatch g) with
      | none =>
        simp only [step, kickH, hgm, hmb] at h2
        rw [h1] at h2
        cases h2
        exact le_refl _
      | some mf =>
        obtain ⟨mid2, hmid2, hgm2⟩ := Option.bind_eq_some.mp hmb
        have hmmf : mid = mf.id → m = mf := by
          intro hmid
          rw [hmid, getMatch_id hgm2] at h1
          have := h1.symm.trans hgm2
          cases this
          rfl
        by_cases hstp : mf.status = .playing
        · by_cases hturn : mf.player mf.turn = some sid
          · simp only [step, kickH, hgm, hmb, hstp, hturn, ne_eq, not_true_eq_false,
              Bool.false_eq_true, if_false] at h2
            exact resolve_store_mono mf _ r1 r2 r3 _ _ h1 h2 rfl hstp.symm hstp hmmf
          · simp only [step, kickH, hgm, hmb, hstp] at h2
            rw [if_neg (by simp), if_pos hturn] at h2
            rw [h1] at h2
            cases h2
            exact le_refl _
        · simp only [step, kickH, hgm, hmb] at h2
          rw [if_pos hstp] at h2
          rw [h1] at h2
          cases h2
          exact le_refl _
  | dive sid dir r1 r2 r3 =>
    cases hgm : getMeta g sid with
    | none =>
      simp only [step, diveH, hgm] at h2
      rw [h1] at h2
      cases h2
      exact le_refl _
    | some meta =>
      cases hmb : meta.matchId.bind (getMatch g) with
      | none =>
        simp only [step, diveH, hgm, hmb] at h2
        rw [h1] at h2
        cases h2
        exact le_refl _
      | some mf =>
        obtain ⟨mid2, hmid2, hgm2⟩ := Option.bind_eq_some.mp hmb
        have hmmf : mid = mf.id → m = mf := by
          intro hmid
          rw [hmid, getMatch_id hgm2] at h1
          have := h1.symm.trans hgm2
          cases this
          rfl
        by_cases hstp : mf.status = .playing
        · by_cases hturn : mf.player (other mf.turn) = some sid
          · simp only [step, diveH, hgm, hmb, hstp, hturn, ne_eq, not_true_eq_false,
              Bool.false_eq_true, if_false] at h2
            exact resolve_store_mono mf _ r1 r2 r3 _ _ h1 h2 rfl hstp.symm hstp hmmf
          · simp only [step, diveH, hgm, hmb, hstp] at h2
            rw [if_neg (by simp), if_pos hturn] at h2
            rw [h1] at h2
            cases h2
            exact le_refl _
        · simp only [step, diveH, hgm, hmb] at h2
          rw [if_pos hstp] at h2
          rw [h1] at h2
          cases h2
          exact le_refl _
  | disconnect sid =>
    cases hgm : getMeta g sid with
    | none =>
      simp only [step, disconnectH, hgm, getMatch_setQueue, getMatch_delMeta] at h2
      rw [h1] at h2
      cases h2
      exact le_refl _
    | some meta =>
      cases hmi : meta.matchId with
      | none =>
        simp only [step, disconnectH, hgm, hmi, getMatch_setQueue, getMatch_delMeta] at h2
        rw [h1] at h2
        cases h2
        exact le_refl _
      | some mid2 =>
        cases hgm2 : getMatch g mid2 with
        | none =>
          simp only [step, disconnectH, hgm, hmi, getMatch_setQueue, getMatch_delMeta,
            hgm2] at h2
          rw [h1] at h2
          cases h2
          exact le_refl _
        | some mf =>
          by_cases hfin : mf.status = .finished
          · simp only [step, disconnectH, hgm, hmi, getMatch_setQueue, getMatch_delMeta,
              hgm2, hfin, if_pos] at h2
            rw [h1] at h2
            cases h2
            exact le_refl _
          · simp only [step, disconnectH, hgm, hmi, getMatch_setQueue, getMatch_delMeta,
              hgm2, hfin, if_false] at h2
            by_cases hmid : mid = ({ mf with status := Status.finished } : Match).id
            · rw [hmid, getMatch_setMatch_self] at h2
              cases h2
              have hmmf : m = mf := by
                have hid2 : mf.id = mid2 := getMatch_id hgm2
                have hmm : mid = mid2 := by
                  rw [hmid]
                  exact hid2
                rw [hmm, hgm2] at h1
                cases h1
                rfl
              rw [hmmf]
              cases hs : mf.status <;> simp [statusRank]
            · rw [getMatch_setMatch_ne _ _ hmid] at h2
              simp only [getMatch_setQueue, getMatch_delMeta] at h2
              rw [h1] at h2
              cases h2
              exact le_refl _

/-- Witness for `status_monotone`: a hello event on the reachable two-player
state preserves the playing match "m1". -/
theorem status_monotone_witness :
    statusRank mSetup.status ≤ statusRank mSetup.status :=
  status_monotone (.hello "x" none none 0 "gid") (run evSetup)
    (by simp only [FreshIds])
    (of_decide_eq_true (by with_unfolding_all rfl)) "m1" mSetup mSetup
    (by with_unfolding_all rfl) (by with_unfolding_all rfl)

set_option maxHeartbeats 2000000 in
/-- C8: matchmaking pairing is FIFO.  Four distinct connections enqueued in
order `c1, c2, c3, c4` (no disconnects in between) produce exactly two public
matches, created in this order: the first pairs `c1` as slot A with `c2` as
slot B, the second pairs `c3` as slot A with `c4` as slot B; both start
immediately and the queue is drained.  The `while (queue.length >= 2)` loop
always dequeues the two oldest entries, the first as A, the second as B. -/
theorem queue_fifo_pairing (c1 c2 c3 c4 idA idB : String)
    (h1 : c1 ≠ "") (h2 : c2 ≠ "") (h3 : c3 ≠ "") (h4 : c4 ≠ "")
    (h12 : c1 ≠ c2) (h13 : c1 ≠ c3) (h14 : c1 ≠ c4)
    (h23 : c2 ≠ c3) (h24 : c2 ≠ c4) (h34 : c3 ≠ c4)
    (hid : idA ≠ idB) :
    ((run [.connect c1, .connect c2, .connect c3, .connect c4,
           .joinQueue c1 (fun _ => idA), .joinQueue c2 (fun _ => idA),
           .joinQueue c3 (fun _ => idB), .joinQueue c4 (fun _ => idB)]).matchStore.map
      (fun m => (m.id, m.playersA, m.playersB, m.status, m.type))) =
      [(idA, some c1, some c2, .playing, .publicM),
       (idB, some c3, some c4, .playing, .publicM)] ∧
    (run [.connect c1, .connect c2, .connect c3, .connect c4,
          .joinQueue c1 (fun _ => idA), .joinQueue c2 (fun _ => idA),
          .joinQueue c3 (fun _ => idB), .joinQueue c4 (fun _ => idB)]).queue = [] := by
  constructor <;>
    simp [run, step, connectH, joinQueueH, pairLoop, createMatch, startIfReady,
      pushTurn, getMeta, setMeta, setMatch, getMatch, truthy, other, Meta.init,
      GState.init, List.find?, h1, h2, h3, h4, h12, h13, h14, h23, h24, h34, hid,
      Ne.symm h12, Ne.symm h13, Ne.symm h14, Ne.symm h23, Ne.symm h24, Ne.symm h34,
      Ne.symm hid]

/-- Witness for `queue_fifo_pairing` at four concrete connections. -/
theorem queue_fifo_pairing_witness :
    ((run [.connect "a", .connect "b", .connect "c", .connect "d",
           .joinQueue "a" (fun _ => "x"), .joinQueue "b" (fun _ => "x"),
           .joinQueue "c" (fun _ => "y"), .joinQueue "d" (fun _ => "y")]).matchStore.map
      (fun m => (m.id, m.playersA, m.playersB, m.status, m.type))) =
      [("x", some "a", some "b", .playing, .publicM),
       ("y", some "c", some "d", .playing, .publicM)] ∧
    (run [.connect "a", .connect "b", .connect "c", .connect "d",
          .joinQueue "a" (fun _ => "x"), .joinQueue "b" (fun _ => "x"),
          .joinQueue "c" (fun _ => "y"), .joinQueue "d" (fun _ => "y")]).queue = [] :=
  queue_fifo_pairing "a" "b" "c" "d" "x" "y" (by decide) (by decide) (by decide)
    (by decide) (by decide) (by decide) (by decide) (by decide) (by decide)
    (by decide) (by decide)

/-! Invariant machinery for the join-by-code contract (C9). -/

theorem startIfReady_playersA (m : Match) : (startIfReady m).1.playersA = m.playersA := by
  unfold startIfReady
  split_ifs <;> rfl

theorem startIfReady_playersB (m : Match) : (startIfReady m).1.playersB = m.playersB := by
  unfold startIfReady
  split_ifs <;> rfl

theorem startIfReady_code (m : Match) : (startIfReady m).1.code = m.code := by
  unfold startIfReady
  split_ifs <;> rfl

theorem pairLoop_WPA (ids : ℕ → String) (k : ℕ) (q : List String) (g : GState) :
    WaitingPrivateHasA g → WaitingPrivateHasA (pairLoop ids k q g).1 := by
  induction k, q, g using pairLoop.induct ids with
  | case1 k g sA sB rest m1 metaA g1 metaB g2 sr g3 ih =>
    intro hg
    have hstep : (pairLoop ids k (sA :: sB :: rest) g).1
        = (pairLoop ids (k + 1) rest g3).1 := rfl
    rw [hstep]
    apply ih
    intro m hm hw hc
    rcases mem_setMatch hm with hold | hnew
    · exact hg m hold hw hc
    · exfalso
      apply hc
      rw [hnew]
      have hcode : sr.1.code = m1.code := by
        have hsr : sr = startIfReady m1 := rfl
        rw [hsr, startIfReady_code]
      rw [hcode]
      rfl
  | case2 k g q' hq =>
    intro hg
    match q' with
    | [] => exact fun m hm hw hc => hg m hm hw hc
    | [s] => exact fun m hm hw hc => hg m hm hw hc
    | sA :: sB :: rest => exact absurd rfl (hq sA sB rest)

/-- The kick/dive tail preserves the waiting-private-has-A invariant: the
touched match is `playing` before and `playing` or `finished` after. -/
theorem resolve_store_WPA {g : GState} (mf m1 : Match) (r1 r2 r3 : ℚ)
    (bcond : Bool) (em : List Emit)
    (hg : WaitingPrivateHasA g) (hm1st : m1.status = mf.status)
    (hstp : mf.status = .playing) :
    WaitingPrivateHasA (if bcond = true then
        (setMatch g (resolveShot r1 r2 r3 m1).1, (resolveShot r1 r2 r3 m1).2)
      else (setMatch g m1, em)).1 := by
  cases bcond with
  | false =>
    simp only [Bool.false_eq_true, if_false]
    intro m hm hw hc
    rcases mem_setMatch hm with hold | hnew
    · exact hg m hold hw hc
    · exfalso
      rw [hnew, hm1st, hstp] at hw
      cases hw
  | true =>
    simp only [if_true]
    intro m hm hw hc
    rcases mem_setMatch hm with hold | hnew
    · exact hg m hold hw hc
    · exfalso
      rcases (resolveShot_inv r1 r2 r3 m1).2.2.2.2 with hsame | hfin
      · rw [hnew, hsame, hm1st, hstp] at hw
        cases hw
      · rw [hnew, hfin] at hw
        cases hw

/-- Every event handler preserves the waiting-private-has-A invariant. -/
theorem inv_preserved (e : Event) (g : GState) (he : GoodEvent e)
    (hg : WaitingPrivateHasA g) : WaitingPrivateHasA (step e g).1 := by
  cases e with
  | connect sid => exact fun m hm => hg m hm
  | hello sid u n now gid =>
    cases u with
    | none => exact fun m hm => hg m hm
    | some s =>
      by_cases hs : s.isEmpty
      · simp only [step, helloH, hs, if_true]
        exact hg
      · simp only [step, helloH, hs, Bool.false_eq_true, if_false]
        exact fun m hm => hg m hm
  | joinQueue sid ids =>
    cases hgm : getMeta g sid with
    | none =>
      simp only [step, joinQueueH, hgm]
      exact hg
    | some meta =>
      simp only [step, joinQueueH, hgm]
      exact pairLoop_WPA ids 0 (g.queue ++ [sid]) g hg
  | createPrivate sid newId codeRs =>
    have hsid : sid ≠ "" := he
    intro m hm hw hc
    rcases mem_setMatch hm with hold | hnew
    · exact hg m hold hw hc
    · rw [hnew]
      simp [truthy, hsid]
  | joinByCode sid code =>
    cases hfc : findByCode g code with
    | none =>
      simp only [step, joinByCodeH, hfc]
      exact hg
    | some mf =>
      by_cases hb : truthy mf.playersB = true
      · simp only [step, joinByCodeH, hfc, hb, if_true]
        exact hg
      · simp only [step, joinByCodeH, hfc, hb, Bool.false_eq_true, if_false]
        intro m hm hw hc
        rcases mem_setMatch hm with hold | hnew
        · exact hg m hold hw hc
        · rcases startIfReady_status ({ mf with playersB := some sid } : Match)
            with hsame | hplay
          · have hw' : mf.status = .waiting := by
              rw [hnew, hsame] at hw
              exact hw
            have hc' : mf.code ≠ none := by
              rw [hnew, startIfReady_code] at hc
              exact hc
            have hA := hg mf (findByCode_mem hfc) hw' hc'
            rw [hnew, startIfReady_playersA]
            exact hA
          · exfalso
            rw [hnew, hplay.2] at hw
            cases hw
  | spectateJoin sid mid2 =>
    cases hgm : getMatch g mid2 with
    | none =>
      simp only [step, spectateJoinH, hgm]
      exact hg
    | some mf =>
      by_cases hfin : mf.status = .finished
      · simp only [step, spectateJoinH, hgm, hfin]
        exact hg
      · simp only [step, spectateJoinH, hgm, hfin, if_false]
        intro m hm hw hc
        rcases mem_setMatch hm with hold | hnew
        · exact hg m hold hw hc
        · rw [hnew] at hw hc ⊢
          exact hg mf (mem_of_getMatch hgm) hw hc
  | kick sid a p r1 r2 r3 =>
    cases hgm : getMeta g sid with
    | none =>
      simp only [step, kickH, hgm]
      exact hg
    | some meta =>
      cases hmb : meta.matchId.bind (getMatch g) with
      | none =>
        simp only [step, kickH, hgm, hmb]
        exact hg
      | some mf =>
        by_cases hstp : mf.status = .playing
        · by_cases hturn : mf.player mf.turn = some sid
          · simp only [step, kickH, hgm, hmb, hstp, hturn, ne_eq, not_true_eq_false,
              Bool.false_eq_true, if_false]
            exact resolve_store_WPA mf _ r1 r2 r3 _ _ hg hstp.symm hstp
          · simp only [step, kickH, hgm, hmb, hstp]
            rw [if_neg (by simp), if_pos hturn]
            exact hg
        · simp only [step, kickH, hgm, hmb]
          rw [if_pos hstp]
          exact hg
  | dive sid dir r1 r2 r3 =>
    cases hgm : getMeta g sid with
    | none =>
      simp only [step, diveH, hgm]
      exact hg
    | some meta =>
      cases hmb : meta.matchId.bind (getMatch g) with
      | none =>
        simp only [step, diveH, hgm, hmb]
        exact hg
      | some mf =>
        by_cases hstp : mf.status = .playing
        · by_cases hturn : mf.player (other mf.turn) = some sid
          · simp only [step, diveH, hgm, hmb, hstp, hturn, ne_eq, not_true_eq_false,
              Bool.false_eq_true, if_false]
            exact resolve_store_WPA mf _ r1 r2 r3 _ _ hg hstp.symm hstp
          · simp only [step, diveH, hgm, hmb, hstp]
            rw [if_neg (by simp), if_pos hturn]
            exact hg
        · simp only [step, diveH, hgm, hmb]
          rw [if_pos hstp]
          exact hg
  | disconnect sid =>
    cases hgm : getMeta g sid with
    | none =>
      simp only [step, disconnectH, hgm]
      exact fun m hm => hg m hm
    | some meta =>
      cases hmi : meta.matchId with
      | none =>
        simp only [step, disconnectH, hgm, hmi]
        exact fun m hm => hg m hm
      | some mid2 =>
        cases hgm2 : getMatch g mid2 with
        | none =>
          simp only [step, disconnectH, hgm, hmi, getMatch_setQueue,
            getMatch_delMeta, hgm2]
          exact fun m hm => hg m hm
        | some mf =>
          by_cases hfin : mf.status = .finished
          · simp only [step, disconnectH, hgm, hmi, getMatch_setQueue,
              getMatch_delMeta, hgm2, hfin]
            exact fun m hm => hg m hm
          · simp only [step, disconnectH, hgm, hmi, getMatch_setQueue,
              getMatch_delMeta, hgm2, hfin, if_false]
            intro m hm hw hc
            rcases mem_setMatch hm with hold | hnew
            · exact hg m hold hw hc
            · exfalso
              rw [hnew] at hw
              cases hw

theorem foldl_WPA (es : List Event) (g : GState)
    (hgood : ∀ e ∈ es, GoodEvent e) (hg : WaitingPrivateHasA g) :
    WaitingPrivateHasA (es.foldl (fun g e => (step e g).1) g) := by
  induction es generalizing g with
  | nil => exact hg
  | cons e es ih =>
    exact ih (step e g).1 (fun e' he' => hgood e' (List.mem_cons_of_mem _ he'))
      (inv_preserved e g (hgood e (List.mem_cons_self _ _)) hg)

theorem reachable_WPA {g : GState} (hg : Reachable g) : WaitingPrivateHasA g := by
  obtain ⟨es, hgood, rfl⟩ := hg
  refine foldl_WPA es GState.init hgood ?_
  intro m hm
  exact absurd hm (List.not_mem_nil m)

/-- C9: the join-by-code contract.  On a reachable server state and a genuine
(nonempty) socket id: an unknown (or no longer waiting) code yields only an
`error_msg` with no state change; a code whose waiting match already has a
truthy slot B yields only an `error_msg` with no state change; a code whose
waiting match has slot B free fills slot B with the joiner and starts the
match (its status becomes `playing`). -/
theorem join_by_code_spec (g : GState) (sid code : String)
    (hg : Reachable g) (hsid : sid ≠ "") :
    (findByCode g code = none →
      (step (.joinByCode sid code) g).1 = g ∧
      (step (.joinByCode sid code) g).2 =
        [(some sid, .errorMsg "Código inválido o sala no disponible")]) ∧
    (∀ mf, findByCode g code = some mf → truthy mf.playersB = true →
      (step (.joinByCode sid code) g).1 = g ∧
      (step (.joinByCode sid code) g).2 =
        [(some sid, .errorMsg "La sala ya está llena")]) ∧
    (∀ mf, findByCode g code = some mf → truthy mf.playersB = false →
      ∃ m', getMatch (step (.joinByCode sid code) g).1 mf.id = some m' ∧
        m'.playersB = some sid ∧ m'.status = .playing) := by
  refine ⟨?_, ?_, ?_⟩
  · intro hfc
    constructor <;> simp [step, joinByCodeH, hfc]
  · intro mf hfc hb
    constructor <;> simp [step, joinByCodeH, hfc, hb]
  · intro mf hfc hb
    have hspec := findByCode_spec hfc
    have hA : truthy mf.playersA = true :=
      reachable_WPA hg mf (findByCode_mem hfc) hspec.2 (by rw [hspec.1]; simp)
    have hcond : truthy ({ mf with playersB := some sid } : Match).playersA = true ∧
        truthy ({ mf with playersB := some sid } : Match).playersB = true ∧
        ({ mf with playersB := some sid } : Match).status = .waiting := by
      refine ⟨hA, ?_, hspec.2⟩
      simp [truthy, hsid]
    have hsr : (startIfReady ({ mf with playersB := some sid } : Match)).1 =
        { mf with playersB := some sid, status := Status.playing } := by
      unfold startIfReady
      rw [if_pos hcond]
    refine ⟨(startIfReady ({ mf with playersB := some sid } : Match)).1, ?_, ?_, ?_⟩
    · suffices hs : getMatch (step (.joinByCode sid code) g).1
          ((startIfReady ({ mf with playersB := some sid } : Match)).1.id) =
          some (startIfReady ({ mf with playersB := some sid } : Match)).1 by
        rw [startIfReady_id] at hs
        exact hs
      simp only [step, joinByCodeH, hfc, hb, Bool.false_eq_true, if_false]
      exact getMatch_setMatch_self _ _
    · rw [startIfReady_playersB]
    · rw [hsr]

/-- Witness for `join_by_code_spec`: the unknown-code case on the reachable
one-private-match state (its code is "AAAAAA", the query "XXXXXX"). -/
theorem join_by_code_spec_witness :
    (step (.joinByCode "z" "XXXXXX") (run evOnePrivate)).1 = run evOnePrivate ∧
    (step (.joinByCode "z" "XXXXXX") (run evOnePrivate)).2 =
      [(some "z", .errorMsg "Código inválido o sala no disponible")] :=
  (join_by_code_spec (run evOnePrivate) "z" "XXXXXX"
      ⟨evOnePrivate, by intro e he; fin_cases he <;> simp [GoodEvent, Event.sid], rfl⟩
      (by decide)).1
    (of_decide_eq_true (by with_unfolding_all rfl))

end Kickoff
